import Mathlib

/-!
Verification of `agent-control.py` (systemd-centos-ci): a shallow embedding of
the lease-and-execute lifecycle manager — allocation with retry/backoff,
remote command execution with artifact capture, the reboot/reachability loop,
and the signal-guarded release path of the `__main__` block — together with
theorems settling the specification claims about them.

Conventions of the embedding:
* the pool's HTTP responses, remote exit codes and ping results are inputs
  (functions from attempt index to a value), since the Python code observes
  them from the environment;
* Python exceptions are modelled as explicit result constructors;
* `time.sleep` calls are modelled by recording the slept durations, in order,
  in a list.
-/

namespace AgentControl

/-- One body returned by the pool endpoint for a `/Node/get` request, as seen
by `allocate_node`.  `json.loads` either fails (`notJson`, raising
`ValueError`) or yields an object in which the `"hosts"` and `"ssid"` keys
may each be present or absent (`json hosts ssid`, with `none` = key absent).
The `hosts` key, when present, maps to a list of host names. -/
inductive Response where
  | notJson : Response
  | json : Option (List String) → Option String → Response
deriving DecidableEq, Repr

/-- The parsed JSON object bound to the Python variable `jroot`:
its optional `"hosts"` and `"ssid"` fields. -/
structure JsonObj where
  hosts : Option (List String)
  ssid : Option String
deriving DecidableEq, Repr

/-- The literal backoff schedule of `allocate_node`:
`for timeout in [60, 300, 600, 1800, 3600]`. -/
def backoffSchedule : List Nat := [60, 300, 600, 1800, 3600]

/-- The retry loop of `allocate_node` (source lines 86-99).  Arguments:
remaining timeouts, the response of each attempt, the current attempt index,
and the current binding of the Python variable `jroot` (`none` = still
unbound).  Returns `(sleeps performed, attempts performed, final jroot)`.
Per iteration: a `notJson` body raises `ValueError` inside `json.loads`
(leaving `jroot` unchanged); a parsed body rebinds `jroot`, and if either
required key is missing the explicit `raise ValueError` fires.  On the
`ValueError` path the loop then executes `time.sleep(timeout)` (the sleep
sits after the `except` handler, inside the `for` body) and continues; if
both keys are present the loop `break`s with no sleep for that iteration. -/
def allocLoop : List Nat → (Nat → Response) → Nat → Option JsonObj →
    List Nat × Nat × Option JsonObj
  | [], _, _, jroot => ([], 0, jroot)
  | t :: ts, resp, i, jroot =>
    match resp i with
    | .notJson =>
      let r := allocLoop ts resp (i + 1) jroot
      (t :: r.1, r.2.1 + 1, r.2.2)
    | .json hs ss =>
      if hs.isSome && ss.isSome then
        ([], 1, some ⟨hs, ss⟩)
      else
        let r := allocLoop ts resp (i + 1) (some ⟨hs, ss⟩)
        (t :: r.1, r.2.1 + 1, r.2.2)

/-- Outcome of `allocate_node` after the loop (source lines 101-112). -/
inductive AllocResult where
  /-- `return (host, ssid)` with both values set. -/
  | lease : String → String → AllocResult
  /-- `return (None, None)` — the `except (ValueError, IndexError)` branch. -/
  | noLease : AllocResult
  /-- an uncaught Python error escapes `allocate_node`: `NameError` when
  `jroot` was never bound, or `KeyError` from `jroot["hosts"]` /
  `jroot["ssid"]` (neither is caught by `except (ValueError, IndexError)`). -/
  | pyError : AllocResult
deriving DecidableEq, Repr

/-- The code after the loop: `host = jroot["hosts"][0]; ssid = jroot["ssid"]`
under `except (ValueError, IndexError): return (None, None)`.
An unbound `jroot` raises `NameError`; a missing key raises `KeyError`;
only an empty hosts list (`IndexError`) reaches the `(None, None)` return. -/
def allocFinish : Option JsonObj → AllocResult
  | none => .pyError
  | some j =>
    match j.hosts with
    | none => .pyError
    | some [] => .noLease
    | some (h :: _) =>
      match j.ssid with
      | none => .pyError
      | some s => .lease h s

/-- `AgentControl.allocate_node`, as a function of the response of each
attempt.  Returns `(sleeps performed, attempts performed, outcome)`. -/
def allocate_node (resp : Nat → Response) : List Nat × Nat × AllocResult :=
  let r := allocLoop backoffSchedule resp 0 none
  (r.1, r.2.1, allocFinish r.2.2)

/-- A response is well-formed in the spec's sense: it parses, carries at
least one host identifier, and carries a session identifier. -/
def wellFormed : Response → Bool
  | .json (some (_ :: _)) (some _) => true
  | _ => false

/-- A response that takes the retry path of the loop: either it is not
parseable JSON, or it parses but the `"hosts"` or `"ssid"` key is absent.
(Note: a parsed body with both keys present but an empty hosts list does
NOT take this path — the loop `break`s on it.) -/
def retryMalformed : Response → Bool
  | .notJson => true
  | .json hs ss => !(hs.isSome && ss.isSome)

/-- How one loop iteration on the `ValueError` path rebinds `jroot`. -/
def updJroot (jroot : Option JsonObj) : Response → Option JsonObj
  | .notJson => jroot
  | .json hs ss => some ⟨hs, ss⟩

/-- Invariant of `jroot` along a run of retry-path iterations: if bound, it
is missing at least one of the two required fields. -/
def jrootOk (j : Option JsonObj) : Prop :=
  ∀ o, j = some o → o.hosts = none ∨ o.ssid = none

/-- Concrete pool behaviour: the first response parses and has both keys but
an empty hosts list; all later responses are unparseable.  Every response is
malformed in the spec's sense. -/
def respC2 : Nat → Response :=
  fun n => if n = 0 then .json (some []) (some "s0") else .notJson

/-- Concrete pool behaviour: every response is an unparseable body. -/
def respW2 : Nat → Response := fun _ => .notJson

/-- Concrete pool behaviour: one spec-malformed response (both keys present,
empty hosts list), then a well-formed one. -/
def respC3 : Nat → Response :=
  fun n => if n = 0 then .json (some []) (some "abc")
           else .json (some ["host1"]) (some "abc")

/-- Concrete pool behaviour: two unparseable bodies, then a well-formed one. -/
def respW3 : Nat → Response :=
  fun n => if n < 2 then .notJson else .json (some ["host1"]) (some "abc")

/-- Concrete pool behaviour: every response parses and has both keys but an
empty hosts list. -/
def respC4 : Nat → Response := fun _ => .json (some []) (some "xyz")

/-- Concrete pool behaviour: first response parses but has no `"hosts"` key;
later responses are well-formed. -/
def respW4 : Nat → Response :=
  fun n => if n = 0 then .json none (some "w4")
           else .json (some ["host4"]) (some "w4")

/-- Concrete pool behaviour: every response parses with both keys present and
an empty hosts list. -/
def respW4b : Nat → Response := fun _ => .json (some []) (some "w4b")

/-- Outcome of `execute_remote_command` (source lines 162-216). -/
inductive RemoteResult where
  /-- `return rc` — the remote command's exit code is returned. -/
  | ok : Int → RemoteResult
  /-- the `raise Exception("Remote command exited with an unexpected return
  code (got: rc, expected: expected_rc) ...")` carrying got and expected. -/
  | remoteCommandFailure : Int → Int → RemoteResult
deriving DecidableEq, Repr

/-- `AgentControl.execute_remote_command`, as a function of the exit code
`rc` of the wrapped ssh command and the exit code `fetch_rc` the `scp` of
`fetch_artifacts` would return.  `artifacts_storage` is the object's
`self.artifacts_storage`; `artifacts_dir` the per-call remote path argument.
Returns `(artifact fetch attempted, fetch-failure warning logged, outcome)`.
Source order: run the command; fetch artifacts when both directories are set
(warning only on a non-zero scp exit); then raise when `ignore_rc` is false
and `rc != expected_rc`, else return `rc`. -/
def execute_remote_command (artifacts_storage artifacts_dir : Option String)
    (rc fetch_rc expected_rc : Int) (ignore_rc : Bool) :
    Bool × Bool × RemoteResult :=
  let fetchAttempted := artifacts_dir.isSome && artifacts_storage.isSome
  let warned := fetchAttempted && (fetch_rc != 0)
  if ignore_rc = false ∧ rc ≠ expected_rc then
    (fetchAttempted, warned, .remoteCommandFailure rc expected_rc)
  else
    (fetchAttempted, warned, .ok rc)

/-- Outcome of `reboot_node` (source lines 266-295): the sleeps performed (in
seconds, in order), the number of ping probes executed, and whether the
timeout exception (`RebootTimeout`) was raised. -/
structure RebootResult where
  sleeps : List Nat
  probes : Nat
  timedOut : Bool
deriving DecidableEq, Repr

/-- The `for i in range(10)` ping loop of `reboot_node`, with the remaining
iteration count and the current probe index; `ping i` is the exit code of
the i-th `/usr/bin/ping -q -c 1 -W 10` probe.  Returns `(sleeps, probes
executed, final value of rc)`.  A zero exit `break`s with no sleep; a
non-zero exit sleeps 15s (also on the last iteration — the `time.sleep(15)`
sits at the end of the loop body) and continues. -/
def probeLoop (ping : Nat → Int) : Nat → Nat → List Nat × Nat × Int
  | 0, _ => ([], 0, 1)
  | n + 1, i =>
    if ping i = 0 then
      ([], 1, 0)
    else if n = 0 then
      ([15], 1, ping i)
    else
      let r := probeLoop ping n (i + 1)
      (15 :: r.1, r.2.1 + 1, r.2.2)

/-- `AgentControl.reboot_node`, as a function of the probe exit codes.  The
initial `systemctl reboot` is issued with `ignore_rc=True`, so its exit code
cannot fail the call (see `execute_remote_command`); then a fixed 30s
cooldown sleep, the 10-iteration ping loop, the `RebootTimeout` raise when
the final rc is non-zero, and otherwise a 30s settle sleep. -/
def reboot_node (ping : Nat → Int) : RebootResult :=
  let r := probeLoop ping 10 0
  if r.2.2 ≠ 0 then
    ⟨30 :: r.1, r.2.1, true⟩
  else
    ⟨30 :: r.1 ++ [30], r.2.1, false⟩

/-- Concrete probe behaviour: the first two probes fail, the third succeeds. -/
def pingW6 : Nat → Int := fun n => if n < 2 then 1 else 0

/-- The CLI flags of the `__main__` block that steer the workflow's control
flow (source lines 339-366).  Flags that only change command strings
(`--arch`, `--branch`, `--pr`, `--rhel`, `--version`) and the administrative
sub-commands are not workflow state and are omitted. -/
structure Args where
  keep : Bool
  ci_pr : Bool
  vagrant_sync : Bool
  vagrant : Bool
deriving DecidableEq, Repr

/-- The workflow phases of the `__main__` try block (source lines 407-445). -/
inductive StepTag where
  /-- PHASE 1: clone the CI repository (`execute_remote_command`). -/
  | clone
  /-- PHASE 1.5: check out a CI pull request, only with `--ci-pr`. -/
  | ciPr
  /-- `upload_file` of the duffy key, only with `--vagrant-sync` (scp). -/
  | uploadKey
  /-- PHASE 2 for `--vagrant-sync`: rebuild the Vagrant images. -/
  | vagrantSync
  /-- PHASE 2 for `--vagrant`: run tests in Vagrant VMs. -/
  | vagrantTest
  /-- PHASE 2 default: run the bootstrap script. -/
  | bootstrap
  /-- `reboot_node` between bootstrap and the testsuite. -/
  | reboot
  /-- PHASE 3 default: run the upstream testsuite. -/
  | testsuite
deriving DecidableEq, Repr

/-- The phase sequence the `__main__` try block attempts, per CLI flags:
clone, the optional PR checkout, then the `vagrant_sync` / `vagrant` /
default variant (the `if/elif/else` at source lines 418-445). -/
def plan (a : Args) : List StepTag :=
  [.clone] ++ (if a.ci_pr then [.ciPr] else []) ++
    (if a.vagrant_sync then [.uploadKey, .vagrantSync]
     else if a.vagrant then [.vagrantTest]
     else [.bootstrap, .reboot, .testsuite])

/-- The `artifacts_dir` argument each phase passes to
`execute_remote_command` (the remote glob to fetch). -/
def stepArtifacts : StepTag → Option String
  | .vagrantTest => some "~/vagrant-logs*"
  | .bootstrap => some "~/bootstrap-logs*"
  | .testsuite => some "~/testsuite-logs*"
  | _ => none

/-- The fresh local artifacts directory created by `tempfile.mkdtemp` and
assigned to `ac.artifacts_storage` before the phases run (source 403-404). -/
def mkdtempDir : String := "artifacts_tmp"

/-- The environment a job run observes: the exit code of the n-th remote
(ssh) command, the exit code of the scp run during phase step n (artifact
fetch or upload), the ping results for the reboot, and the phase step (if
any) during which Jenkins delivers SIGTERM/SIGHUP, making `handle_signal`
raise `SignalException`. -/
structure World where
  remoteRc : Nat → Int
  scpRc : Nat → Int
  ping : Nat → Int
  cancelAt : Option Nat

/-- How the try block of `__main__` ends. -/
inductive Outcome where
  /-- all phases completed. -/
  | ok
  /-- a phase raised (`RemoteCommandFailure` from a mismatched exit code, or
  the reboot timeout), caught by `except Exception`, setting `rc = 1`. -/
  | failed
  /-- `SignalException` raised during a phase, caught by
  `except SignalException`, leaving `rc = 0`. -/
  | cancelled
deriving DecidableEq, Repr

/-- Result of the remote command issued for one phase step: all phase calls
use `expected_rc = 0` and `ignore_rc = False`, the per-step artifact glob,
and the artifacts storage configured for the job. -/
def runStepRemote (w : World) (ri : Nat) (t : StepTag) : RemoteResult :=
  (execute_remote_command (some mkdtempDir) (stepArtifacts t)
    (w.remoteRc ri) (w.scpRc ri) 0 false).2.2

/-- What executing one phase step does: either the exception propagates
(`raise`), or control proceeds, consuming `d` remote (ssh) command slots.
`uploadKey` is a plain scp whose exit code is returned, never raised on;
`reboot` consumes the ssh slot of `systemctl reboot` (issued with
`ignore_rc=True`, so tolerated) and raises exactly when the ping loop times
out; every other step raises exactly when its remote exit code is not 0. -/
inductive StepExec where
  | proceed : Nat → StepExec
  | raise : StepExec
deriving DecidableEq, Repr

def stepExec (w : World) (ri : Nat) : StepTag → StepExec
  | .uploadKey => .proceed 0
  | .reboot => if (reboot_node w.ping).timedOut then .raise else .proceed 1
  | t =>
    match runStepRemote w ri t with
    | .remoteCommandFailure _ _ => .raise
    | .ok _ => .proceed 1

/-- Sequential execution of the phases (list of pending steps, current step
index for signal delivery, current remote-command index).  Returns the steps
that ran and how the try block ended.  A raised exception stops every later
phase; a `SignalException` delivered at a step interrupts it. -/
def runPhases (w : World) : List StepTag → Nat → Nat → List StepTag × Outcome
  | [], _, _ => ([], .ok)
  | t :: ts, si, ri =>
    if w.cancelAt = some si then ([], .cancelled)
    else
      match stepExec w ri t with
      | .raise => ([t], .failed)
      | .proceed d =>
        let r := runPhases w ts (si + 1) (ri + d)
        (t :: r.1, r.2)

/-- Observables of one whole `__main__` run: the `free_session` calls made
(in order, with the value of the Python variable `ssid` passed to each;
`none` is Python's `None`), the process exit status, the phase steps that
ran, and how the try block ended. -/
structure MainResult where
  releases : List (Option String)
  status : Nat
  executed : List StepTag
  outcome : Outcome
deriving Repr

/-- The `__main__` block (source lines 382-479) for a testing run (no
administrative sub-command).  Case analysis on the allocation outcome:

* `pyError`: `allocate_node` raised (`NameError`/`KeyError`), caught by
  `except Exception` (`rc = 1`); in the `finally`, evaluating `ssid` for
  `ac.free_session(ssid)` raises `NameError` (it was never bound), so no
  release call happens and the process dies with status 1.  With `--keep`
  the release is skipped and the index-generation line hits the same
  unbound-variable problem or is skipped; status is 1 either way.
* `noLease`: `allocate_node` returned `(None, None)` and `sys.exit(1)`
  raised `SystemExit`, which neither `except` clause catches — but the
  `finally` still runs, so unless `--keep` is set `free_session(None)` is
  called once; the process exits with status 1.
* `lease host ssid`: the phases run; `rc` becomes 1 exactly when a phase
  failure was caught by `except Exception` (a `SignalException` leaves
  `rc = 0`); the `finally` releases the obtained ssid exactly once unless
  `--keep` is set; the process exits with `rc`. -/
def mainRun (a : Args) (resp : Nat → Response) (w : World) : MainResult :=
  match (allocate_node resp).2.2 with
  | .pyError => ⟨[], 1, [], .failed⟩
  | .noLease => ⟨if a.keep then [] else [none], 1, [], .failed⟩
  | .lease _ s =>
    let r := runPhases w (plan a) 0 0
    let rc : Nat := match r.2 with | .failed => 1 | _ => 0
    ⟨if a.keep then [] else [some s], rc, r.1, r.2⟩

/-- Concrete job: pool answers with both keys present but no hosts. -/
def respC1 : Nat → Response := fun _ => .json (some []) (some "abc")

/-- Concrete CLI flags: no `--keep`, default workflow variant. -/
def argsC1 : Args := ⟨false, false, false, false⟩

/-- Concrete benign environment (all commands succeed, no signal). -/
def worldC1 : World := ⟨fun _ => 0, fun _ => 0, fun _ => 0, none⟩

/-- Concrete job for the C7 witness: allocation succeeds, the bootstrap
phase (second remote command) exits 1, no signal arrives. -/
def respW7 : Nat → Response := fun _ => .json (some ["host1"]) (some "abc")

/-- Concrete CLI flags for the C7 witness: default variant, no `--keep`. -/
def argsW7 : Args := ⟨false, false, false, false⟩

/-- Concrete environment for the C7 witness: the second ssh command (the
bootstrap phase) exits 1, everything else succeeds, no signal. -/
def worldW7 : World := ⟨fun n => if n = 1 then 1 else 0, fun _ => 0, fun _ => 0, none⟩

/-- A SIGTERM or SIGHUP as distinguished by the two `signal.signal` calls. -/
inductive Sig where
  | sigterm
  | sighup
deriving DecidableEq, Repr

/-- The disposition of a signal: `handler` is the `handle_signal` function
installed at source lines 385-386 (raises `SignalException`), `ignored` is
`signal.SIG_IGN`, `dfl` is `signal.SIG_DFL` (terminates the process). -/
inductive Disposition where
  | handler
  | ignored
  | dfl
deriving DecidableEq, Repr

/-- What delivering a signal at the current dispositions does. -/
inductive AbortKind where
  /-- `handle_signal` ran and raised `SignalException`, abandoning the rest
  of the `finally` block. -/
  | raised
  /-- the default disposition terminated the process. -/
  | killed
deriving DecidableEq, Repr

/-- State of the release sequence: current dispositions of SIGTERM and
SIGHUP plus how many `free_session` calls were started and completed. -/
structure SigState where
  term : Disposition
  hup : Disposition
  releasesStarted : Nat
  releasesCompleted : Nat
deriving DecidableEq, Repr

def dispOf (s : SigState) : Sig → Disposition
  | .sigterm => s.term
  | .sighup => s.hup

/-- Deliver a burst of pending signals: the first one whose disposition is
not `ignored` either raises (`handler`) or kills (`dfl`); signals with
disposition `ignored` do nothing. -/
def deliverAbort (s : SigState) : List Sig → Option AbortKind
  | [] => none
  | sig :: rest =>
    match dispOf s sig with
    | .handler => some .raised
    | .dfl => some .killed
    | .ignored => deliverAbort s rest

/-- The statements of the guaranteed-release part of the `finally` block
(source lines 463-470), in order: mask SIGTERM, mask SIGHUP, the
`free_session` call (split into begin/end so a signal can arrive while it
runs), restore SIGTERM to default, restore SIGHUP to default. -/
inductive FinStep where
  | maskTerm
  | maskHup
  | releaseBegin
  | releaseEnd
  | restoreTerm
  | restoreHup
deriving DecidableEq, Repr

def applyStep (s : SigState) : FinStep → SigState
  | .maskTerm => { s with term := .ignored }
  | .maskHup => { s with hup := .ignored }
  | .releaseBegin => { s with releasesStarted := s.releasesStarted + 1 }
  | .releaseEnd => { s with releasesCompleted := s.releasesCompleted + 1 }
  | .restoreTerm => { s with term := .dfl }
  | .restoreHup => { s with hup := .dfl }

def finallySeq : List FinStep :=
  [.maskTerm, .maskHup, .releaseBegin, .releaseEnd, .restoreTerm, .restoreHup]

/-- Run the release sequence under a signal schedule: `sched n` is the burst
of signals delivered at program point n (before the n-th statement; n = 6 is
right after the last).  An abort stops the remaining statements. -/
def runFin (sched : Nat → List Sig) :
    List FinStep → Nat → SigState → SigState × Option AbortKind
  | [], n, s =>
    match deliverAbort s (sched n) with
    | some ab => (s, some ab)
    | none => (s, none)
  | st :: rest, n, s =>
    match deliverAbort s (sched n) with
    | some ab => (s, some ab)
    | none => runFin sched rest (n + 1) (applyStep s st)

/-- Dispositions on entry of the `finally` block: `handle_signal` is still
installed for both signals (source lines 385-386); no release has run. -/
def initSigState : SigState := ⟨.handler, .handler, 0, 0⟩

/-- The guaranteed-release step of the `finally` block under a signal
schedule. -/
def releaseFinally (sched : Nat → List Sig) : SigState × Option AbortKind :=
  runFin sched finallySeq 0 initSigState

/-- Concrete signal storm: three signals arrive while `free_session` runs. -/
def schedW8 : Nat → List Sig :=
  fun n => if n = 3 then [.sigterm, .sighup, .sigterm] else []

/-- The mutable attributes of an `AgentControl` object.  `nodeDict` is
`self._node`, a Python dict modelled as an association list (with an
`Option` around it because `__del__` also guards against `None`);
`__init__` sets it to the empty dict `{}` (source line 25). -/
structure ACState where
  nodeDict : Option (List (String × String))
  artifacts_storage : Option String
  reboot_count : Nat
deriving DecidableEq, Repr

/-- `AgentControl.__init__`: `self._node = {}`, `self._reboot_count = 0`,
`self.artifacts_storage = artifacts_storage` (defaulting to `None` as in
the `__main__` block's `AgentControl()` call). -/
def ACState.init : ACState := ⟨some [], none, 0⟩

/-- Every operation performed on the `AgentControl` object after
construction, by any caller in the script. -/
inductive ACOp where
  | allocateNode (resp : Nat → Response)
  | allocatedNodes
  | executeLocal
  | executeRemote (artifacts_dir : Option String)
  | fetchArtifactsFromNode
  | freeAllNodes
  | freeSession (ssid : String)
  | rebootNode (ping : Nat → Int)
  | uploadFile
  /-- the `ac.artifacts_storage = artifacts_dir` assignment in `__main__`
  (source line 404). -/
  | setArtifactsStorage (d : Option String)

/-- Effect of each operation on the object's attributes.  No method of the
class assigns to `self._node` or `self._reboot_count` — `self._node` occurs
only in `__init__` (line 25) and, read-only, in `__del__` (lines 34-35);
`allocate_node` returns its `(host, ssid)` tuple without storing it.  The
only attribute ever written after construction is `artifacts_storage`. -/
def applyOp (s : ACState) : ACOp → ACState
  | .setArtifactsStorage d => { s with artifacts_storage := d }
  | _ => s

/-- The guard of `AgentControl.__del__` (source lines 32-35):
`self._node is not None and "ssid" in self._node`; when true, the destructor
would call `free_session(self._node["ssid"])`. -/
def del_fires (s : ACState) : Bool :=
  match s.nodeDict with
  | none => false
  | some d => d.any (fun kv => kv.1 == "ssid")

end AgentControl

namespace AgentControl

theorem allocLoop_cons_malformed (t : Nat) (ts : List Nat) (resp : Nat → Response)
    (i : Nat) (jroot : Option JsonObj) (h : retryMalformed (resp i) = true) :
    allocLoop (t :: ts) resp i jroot =
      ((t :: (allocLoop ts resp (i + 1) (updJroot jroot (resp i))).1),
        (allocLoop ts resp (i + 1) (updJroot jroot (resp i))).2.1 + 1,
        (allocLoop ts resp (i + 1) (updJroot jroot (resp i))).2.2) := by
  cases hr : resp i with
  | notJson => simp [allocLoop, hr, updJroot]
  | json hs ss =>
    have hb : hs = none ∨ ss = none := by
      have := h
      rw [hr] at this
      simpa [retryMalformed] using this
    rcases hb with hb | hb <;> simp [allocLoop, hr, hb, updJroot]

theorem allocLoop_cons_wellformed (t : Nat) (ts : List Nat) (resp : Nat → Response)
    (i : Nat) (jroot : Option JsonObj) (hs : List String) (s : String)
    (hr : resp i = .json (some hs) (some s)) :
    allocLoop (t :: ts) resp i jroot = ([], 1, some ⟨some hs, some s⟩) := by
  simp [allocLoop, hr]

theorem allocLoop_exhaust (ts : List Nat) (resp : Nat → Response) (i : Nat)
    (jroot : Option JsonObj)
    (h : ∀ k, k < ts.length → retryMalformed (resp (i + k)) = true)
    (hj : jrootOk jroot) :
    (allocLoop ts resp i jroot).1 = ts ∧
    (allocLoop ts resp i jroot).2.1 = ts.length ∧
    jrootOk (allocLoop ts resp i jroot).2.2 := by
  induction ts generalizing i jroot with
  | nil => simpa [allocLoop] using hj
  | cons t ts ih =>
    have h0 : retryMalformed (resp i) = true := by
      have := h 0 (by simp)
      simpa using this
    rw [allocLoop_cons_malformed t ts resp i jroot h0]
    have hj' : jrootOk (updJroot jroot (resp i)) := by
      cases hr : resp i with
      | notJson => simpa [updJroot] using hj
      | json hs ss =>
        intro o ho
        simp [updJroot] at ho
        have hb : hs = none ∨ ss = none := by
          have := h0
          rw [hr] at this
          simpa [retryMalformed] using this
        rcases hb with hb' | hb'
        · left
          rw [← ho, hb']
        · right
          rw [← ho, hb']
    have h' : ∀ k, k < ts.length → retryMalformed (resp (i + 1 + k)) = true := by
      intro k hk
      have := h (k + 1) (by simpa using Nat.succ_lt_succ hk)
      simpa [Nat.add_comm, Nat.add_assoc, Nat.add_left_comm] using this
    have := ih (i + 1) (updJroot jroot (resp i)) h' hj'
    refine ⟨by simp [this.1], by simp [this.2.1], this.2.2⟩

theorem allocLoop_first_wellformed (ts : List Nat) (resp : Nat → Response)
    (i k : Nat) (jroot : Option JsonObj) (hs : List String) (s : String)
    (hk : k < ts.length)
    (hmal : ∀ j, j < k → retryMalformed (resp (i + j)) = true)
    (hwf : resp (i + k) = .json (some hs) (some s)) :
    allocLoop ts resp i jroot = (ts.take k, k + 1, some ⟨some hs, some s⟩) := by
  induction k generalizing ts i jroot with
  | zero =>
    cases ts with
    | nil => simp at hk
    | cons t ts' =>
      have hr : resp i = .json (some hs) (some s) := by simpa using hwf
      simpa using allocLoop_cons_wellformed t ts' resp i jroot hs s hr
  | succ k ih =>
    cases ts with
    | nil => simp at hk
    | cons t ts' =>
      have h0 : retryMalformed (resp i) = true := by
        have := hmal 0 (Nat.succ_pos k)
        simpa using this
      rw [allocLoop_cons_malformed t ts' resp i jroot h0]
      have hk' : k < ts'.length := by simpa using Nat.lt_of_succ_lt_succ hk
      have hmal' : ∀ j, j < k → retryMalformed (resp (i + 1 + j)) = true := by
        intro j hj
        have := hmal (j + 1) (Nat.succ_lt_succ hj)
        simpa [Nat.add_comm, Nat.add_assoc, Nat.add_left_comm] using this
      have hwf' : resp (i + 1 + k) = .json (some hs) (some s) := by
        have : i + 1 + k = i + (k + 1) := by omega
        rw [this]
        exact hwf
      rw [ih ts' (i + 1) (updJroot jroot (resp i)) hk' hmal' hwf']
      simp [List.take]

theorem allocLoop_attempts_pos (t : Nat) (ts : List Nat) (resp : Nat → Response)
    (i : Nat) (jroot : Option JsonObj) :
    1 ≤ (allocLoop (t :: ts) resp i jroot).2.1 := by
  cases hr : resp i with
  | notJson => simp [allocLoop, hr]
  | json hs ss =>
    by_cases hb : (hs.isSome && ss.isSome) = true
    · simp [allocLoop, hr, hb]
    · simp [allocLoop, hr, hb]

theorem allocFinish_not_lease (j : Option JsonObj) (hj : jrootOk j) :
    ∀ h s, allocFinish j ≠ .lease h s := by
  intro h s
  cases j with
  | none => simp [allocFinish]
  | some o =>
    rcases hj o rfl with ho | ho
    · simp [allocFinish, ho]
    · cases hh : o.hosts with
      | none => simp [allocFinish, hh]
      | some l =>
        cases l with
        | nil => simp [allocFinish, hh]
        | cons a as => simp [allocFinish, hh, ho]

/-- Claim C2, counterexample: with every response malformed in the spec's
sense, the loop can still stop after a single attempt with no backoff wait —
`respC2`'s first body parses with both keys present but an empty hosts list,
so the loop `break`s immediately and `allocate_node` returns `(None, None)`
after 1 attempt, not 5. -/
theorem agent_c2_counterexample :
    (∀ i, i < 5 → wellFormed (respC2 i) = false) ∧
    allocate_node respC2 = ([], 1, .noLease) := by
  refine ⟨by decide, ?_⟩
  rfl

/-- Claim C2 (amended): if every response takes the retry path (unparseable,
or parsed with the `"hosts"` or `"ssid"` key missing), `allocate_node`
performs exactly 5 attempts, sleeps the full backoff sequence
60, 300, 600, 1800, 3600 (the last wait elapsing after the final failed
attempt), and terminates without producing any lease. -/
theorem agent_c2_allocate_exhausts_backoff (resp : Nat → Response)
    (h : ∀ i, i < 5 → retryMalformed (resp i) = true) :
    (allocate_node resp).1 = backoffSchedule ∧
    (allocate_node resp).2.1 = 5 ∧
    ∀ hst s, (allocate_node resp).2.2 ≠ .lease hst s := by
  have hlen : ∀ k, k < backoffSchedule.length → retryMalformed (resp (0 + k)) = true := by
    intro k hk
    have hk5 : k < 5 := by simpa [backoffSchedule] using hk
    simpa using h k hk5
  have hnone : jrootOk none := by intro o ho; cases ho
  have hmain := allocLoop_exhaust backoffSchedule resp 0 none hlen hnone
  refine ⟨?_, ?_, ?_⟩
  · simpa [allocate_node] using hmain.1
  · have := hmain.2.1
    simpa [allocate_node, backoffSchedule] using this
  · intro hst s
    have := allocFinish_not_lease _ hmain.2.2 hst s
    simpa [allocate_node] using this

/-- Claim C2, witness: with every body unparseable, all 5 attempts happen,
all 5 waits elapse, and no lease results. -/
theorem agent_c2_witness :
    (allocate_node respW2).1 = backoffSchedule ∧
    (allocate_node respW2).2.1 = 5 ∧
    (allocate_node respW2).2.2 ≠ .lease "host1" "abc" :=
  ⟨(agent_c2_allocate_exhausts_backoff respW2 (by decide)).1,
   (agent_c2_allocate_exhausts_backoff respW2 (by decide)).2.1,
   (agent_c2_allocate_exhausts_backoff respW2 (by decide)).2.2 "host1" "abc"⟩

/-- Claim C3, counterexample: take k = 1 with a first response that is
malformed in the spec's sense (parses, both keys present, empty hosts list)
followed by a well-formed response.  The claim predicts a 60s sleep and a
lease `("host1", "abc")`; the code instead stops at the first attempt with no
sleep and returns `(None, None)`. -/
theorem agent_c3_counterexample :
    wellFormed (respC3 0) = false ∧
    respC3 1 = .json (some ["host1"]) (some "abc") ∧
    allocate_node respC3 = ([], 1, .noLease) ∧
    allocate_node respC3 ≠ ([60], 2, .lease "host1" "abc") := by
  refine ⟨rfl, rfl, rfl, ?_⟩
  decide

/-- Claim C3 (amended): if the first k responses (k < 5) are malformed in the
retried sense (unparseable or missing the `"hosts"`/`"ssid"` key) and the
next response is well-formed, `allocate_node` sleeps exactly the first k
backoff durations and returns the first host and the session identifier. -/
theorem agent_c3_allocate_first_wellformed_after_retries
    (resp : Nat → Response) (k : Nat) (h : String) (rest : List String)
    (s : String) (hk : k < 5)
    (hmal : ∀ j, j < k → retryMalformed (resp j) = true)
    (hwf : resp k = .json (some (h :: rest)) (some s)) :
    allocate_node resp = (backoffSchedule.take k, k + 1, .lease h s) := by
  have hk' : k < backoffSchedule.length := by simpa [backoffSchedule] using hk
  have hmal' : ∀ j, j < k → retryMalformed (resp (0 + j)) = true := by
    intro j hj
    simpa using hmal j hj
  have hwf' : resp (0 + k) = .json (some (h :: rest)) (some s) := by simpa using hwf
  have := allocLoop_first_wellformed backoffSchedule resp 0 k none (h :: rest) s
    hk' hmal' hwf'
  simp [allocate_node, this, allocFinish]

/-- Claim C3, witness: two unparseable bodies then a well-formed one give
sleeps of 60s and 300s, three attempts, and the lease `("host1", "abc")`. -/
theorem agent_c3_witness :
    allocate_node respW3 = ([60, 300], 3, .lease "host1" "abc") := by
  have := agent_c3_allocate_first_wellformed_after_retries respW3 2 "host1" []
    "abc" (by decide) (by decide) rfl
  simpa [backoffSchedule] using this

/-- Claim C4, counterexample: a response that parses with both keys present
but an empty hosts list is NOT retried — `allocate_node` stops at that very
attempt (1 attempt, no backoff sleep) and returns `(None, None)`, even though
the response is malformed in the spec's sense. -/
theorem agent_c4_counterexample :
    wellFormed (respC4 0) = false ∧
    allocate_node respC4 = ([], 1, .noLease) ∧
    ¬ 2 ≤ (allocate_node respC4).2.1 := by
  refine ⟨rfl, rfl, ?_⟩
  decide

/-- Claim C4 (amended): a parsed response missing the `"hosts"` or `"ssid"`
key is treated like a transient failure — the first backoff wait (60s) is
performed and at least a second attempt is made; but a parsed response with
both keys present and an empty hosts list ends allocation at that attempt,
with no retry, returning `(None, None)`. -/
theorem agent_c4_missing_key_retried_empty_hosts_not (resp : Nat → Response) :
    (∀ hs ss, resp 0 = .json hs ss → (hs = none ∨ ss = none) →
      ∃ l, (allocate_node resp).1 = 60 :: l ∧ 2 ≤ (allocate_node resp).2.1) ∧
    (∀ s, resp 0 = .json (some []) (some s) →
      allocate_node resp = ([], 1, .noLease)) := by
  constructor
  · intro hs ss hr hmiss
    have h0 : retryMalformed (resp 0) = true := by
      rcases hmiss with hm | hm <;> simp [retryMalformed, hr, hm]
    have hstep := allocLoop_cons_malformed 60 [300, 600, 1800, 3600] resp 0 none h0
    have hpos := allocLoop_attempts_pos 300 [600, 1800, 3600] resp 1
      (updJroot none (resp 0))
    refine ⟨(allocLoop [300, 600, 1800, 3600] resp 1 (updJroot none (resp 0))).1, ?_, ?_⟩
    · simp [allocate_node, backoffSchedule, hstep]
    · simp only [allocate_node, backoffSchedule, hstep, Nat.zero_add]
      omega
  · intro s hr
    simp [allocate_node, backoffSchedule, allocLoop, hr, allocFinish]

theorem probeLoop_step_fail (ping : Nat → Int) (n i : Nat)
    (h0 : ping i ≠ 0) (hn : n ≠ 0) :
    probeLoop ping (n + 1) i =
      (15 :: (probeLoop ping n (i + 1)).1,
        (probeLoop ping n (i + 1)).2.1 + 1,
        (probeLoop ping n (i + 1)).2.2) := by
  simp only [probeLoop, if_neg h0, if_neg hn]

theorem probeLoop_allFail (ping : Nat → Int) (n i : Nat) (hn : 1 ≤ n)
    (h : ∀ j, j < n → ping (i + j) ≠ 0) :
    probeLoop ping n i = (List.replicate n 15, n, ping (i + (n - 1))) := by
  induction n generalizing i with
  | zero => omega
  | succ m ih =>
    have h0 : ping i ≠ 0 := by simpa using h 0 (Nat.succ_pos m)
    cases m with
    | zero => simp [probeLoop, h0]
    | succ m' =>
      have ih' := ih (i + 1) (Nat.succ_pos m') (by
        intro j hj
        have := h (j + 1) (Nat.succ_lt_succ hj)
        simpa [Nat.add_comm, Nat.add_assoc, Nat.add_left_comm] using this)
      have harith : i + 1 + (m' + 1 - 1) = i + (m' + 1 + 1 - 1) := by omega
      rw [probeLoop_step_fail ping (m' + 1) i h0 (by omega), ih']
      have harith2 : i + 1 + m' = i + (m' + 1) := by omega
      simp [List.replicate_succ, harith, harith2]

theorem probeLoop_firstSuccess (ping : Nat → Int) (n i k : Nat) (hk : k < n)
    (hsucc : ping (i + k) = 0) (hfail : ∀ j, j < k → ping (i + j) ≠ 0) :
    probeLoop ping n i = (List.replicate k 15, k + 1, 0) := by
  induction k generalizing n i with
  | zero =>
    cases n with
    | zero => omega
    | succ m =>
      have h0 : ping i = 0 := by simpa using hsucc
      simp [probeLoop, h0]
  | succ k ih =>
    cases n with
    | zero => omega
    | succ m =>
      have h0 : ping i ≠ 0 := by simpa using hfail 0 (Nat.succ_pos k)
      have hm : k < m := Nat.lt_of_succ_lt_succ hk
      have hm0 : m ≠ 0 := by omega
      have ih' := ih m (i + 1) hm
        (by
          have : i + 1 + k = i + (k + 1) := by omega
          rw [this]
          exact hsucc)
        (by
          intro j hj
          have := hfail (j + 1) (Nat.succ_lt_succ hj)
          simpa [Nat.add_comm, Nat.add_assoc, Nat.add_left_comm] using this)
      rw [probeLoop_step_fail ping m i h0 hm0, ih']
      simp [List.replicate_succ]

theorem probeLoop_probes_le (ping : Nat → Int) (n i : Nat) :
    (probeLoop ping n i).2.1 ≤ n := by
  induction n generalizing i with
  | zero => simp [probeLoop]
  | succ m ih =>
    by_cases h0 : ping i = 0
    · simp [probeLoop, h0]
    · cases m with
      | zero => simp [probeLoop, h0]
      | succ m' =>
        rw [probeLoop_step_fail ping (m' + 1) i h0 (by omega)]
        simpa using Nat.succ_le_succ (ih (i + 1))

/-- Claim C5: with `ignore_rc` true, `execute_remote_command` never raises
and returns the remote exit code; with `ignore_rc` false and a mismatched
exit code it raises the failure carrying both the actual and the expected
code; with matching codes it returns the code without raising. -/
theorem agent_c5_run_remote_exit_code_contract
    (st ad : Option String) (rc frc erc : Int) :
    (execute_remote_command st ad rc frc erc true).2.2 = .ok rc ∧
    (rc ≠ erc →
      (execute_remote_command st ad rc frc erc false).2.2 =
        .remoteCommandFailure rc erc) ∧
    (rc = erc →
      (execute_remote_command st ad rc frc erc false).2.2 = .ok rc) := by
  refine ⟨by simp [execute_remote_command], ?_, ?_⟩
  · intro hne
    simp [execute_remote_command, hne]
  · intro heq
    simp [execute_remote_command, heq]

/-- Claim C5, witness: exit code 7 with `ignore_rc=true` is returned; exit
code 1 against expected 0 with `ignore_rc=false` raises the failure carrying
(got 1, expected 0); matching codes return without raising. -/
theorem agent_c5_witness :
    (execute_remote_command none none 7 0 0 true).2.2 = .ok 7 ∧
    (execute_remote_command none none 1 0 0 false).2.2 =
      .remoteCommandFailure 1 0 ∧
    (execute_remote_command none none 0 0 0 false).2.2 = .ok 0 :=
  ⟨(agent_c5_run_remote_exit_code_contract none none 7 0 0).1,
   (agent_c5_run_remote_exit_code_contract none none 1 0 0).2.1 (by decide),
   (agent_c5_run_remote_exit_code_contract none none 0 0 0).2.2 rfl⟩

/-- Claim C6: `reboot_node` sleeps a fixed 30s cooldown before the first
probe, performs at most 10 probes with a 15s delay after each failed probe,
stops probing at the first successful probe and then sleeps an extra 30s
settle delay, and raises the reboot timeout if and only if all 10 probes
fail. -/
theorem agent_c6_reboot_probe_contract (ping : Nat → Int) :
    (reboot_node ping).probes ≤ 10 ∧
    ((reboot_node ping).timedOut = true ↔ ∀ j, j < 10 → ping j ≠ 0) ∧
    (∀ k, k < 10 → ping k = 0 → (∀ j, j < k → ping j ≠ 0) →
      (reboot_node ping).timedOut = false ∧
      (reboot_node ping).probes = k + 1 ∧
      (reboot_node ping).sleeps = 30 :: (List.replicate k 15 ++ [30])) ∧
    ((reboot_node ping).timedOut = true →
      (reboot_node ping).probes = 10 ∧
      (reboot_node ping).sleeps = 30 :: List.replicate 10 15) := by
  have hfirst : ∀ k, k < 10 → ping k = 0 → (∀ j, j < k → ping j ≠ 0) →
      (reboot_node ping).timedOut = false ∧
      (reboot_node ping).probes = k + 1 ∧
      (reboot_node ping).sleeps = 30 :: (List.replicate k 15 ++ [30]) := by
    intro k hk hz hprev
    have hpl := probeLoop_firstSuccess ping 10 0 k hk (by simpa using hz)
      (by intro j hj; simpa using hprev j hj)
    simp [reboot_node, hpl]
  have hiff : (reboot_node ping).timedOut = true ↔ ∀ j, j < 10 → ping j ≠ 0 := by
    constructor
    · intro ht
      by_contra hcon
      push_neg at hcon
      obtain ⟨j0, hj0, hz0⟩ := hcon
      have hex : ∃ j, j < 10 ∧ ping j = 0 := ⟨j0, hj0, hz0⟩
      classical
      have hkP := Nat.find_spec hex
      have hprev : ∀ j, j < Nat.find hex → ping j ≠ 0 := by
        intro j hj
        by_contra hz
        exact Nat.find_min hex hj ⟨Nat.lt_trans hj hkP.1, hz⟩
      have hfalse := (hfirst (Nat.find hex) hkP.1 hkP.2 hprev).1
      rw [ht] at hfalse
      simp at hfalse
    · intro hall
      have hpl := probeLoop_allFail ping 10 0 (by omega)
        (by intro j hj; simpa using hall j hj)
      have h9 : ping (0 + (10 - 1)) ≠ 0 := by simpa using hall 9 (by omega)
      simp [reboot_node, hpl, h9]
  refine ⟨?_, hiff, hfirst, ?_⟩
  · have := probeLoop_probes_le ping 10 0
    by_cases ht : (probeLoop ping 10 0).2.2 ≠ 0 <;> simp [reboot_node, ht] <;> exact this
  · intro ht
    have hall := hiff.mp ht
    have hpl := probeLoop_allFail ping 10 0 (by omega)
      (by intro j hj; simpa using hall j hj)
    have h9 : ping (0 + (10 - 1)) ≠ 0 := by simpa using hall 9 (by omega)
    simp [reboot_node, hpl, h9]

/-- Claim C6, witness: with the first two probes failing and the third
succeeding, no timeout is raised, exactly 3 probes run, and the sleeps are
the 30s cooldown, two 15s delays, and the 30s settle delay. -/
theorem agent_c6_witness :
    (reboot_node pingW6).timedOut = false ∧
    (reboot_node pingW6).probes = 3 ∧
    (reboot_node pingW6).sleeps = [30, 15, 15, 30] := by
  have := (agent_c6_reboot_probe_contract pingW6).2.2.1 2 (by decide) (by decide)
    (by decide)
  exact ⟨this.1, this.2.1, by simpa using this.2.2⟩

/-- Claim C9: artifact retrieval is attempted exactly when both the remote
artifacts path and the local artifacts directory are set; a failing fetch is
only logged as a warning and never changes the outcome (exit code or raised
failure) of `execute_remote_command`. -/
theorem agent_c9_artifact_fetch_nonfatal (st ad : Option String)
    (rc frc frc' erc : Int) (ign : Bool) :
    (execute_remote_command st ad rc frc erc ign).1 =
      (ad.isSome && st.isSome) ∧
    (execute_remote_command st ad rc frc erc ign).2.1 =
      ((ad.isSome && st.isSome) && (frc != 0)) ∧
    (execute_remote_command st ad rc frc erc ign).2.2 =
      (execute_remote_command st ad rc frc' erc ign).2.2 := by
  refine ⟨?_, ?_, ?_⟩ <;>
    by_cases h : ign = false ∧ rc ≠ erc <;>
      simp [execute_remote_command, h]

/-- Claim C4, witness: a body with no `"hosts"` key is retried (at least two
attempts); a body with both keys and an empty hosts list ends allocation at
once with `(None, None)`. -/
theorem agent_c4_witness :
    2 ≤ (allocate_node respW4).2.1 ∧
    allocate_node respW4b = ([], 1, .noLease) := by
  constructor
  · obtain ⟨l, hl, h2⟩ :=
      (agent_c4_missing_key_retried_empty_hosts_not respW4).1 none (some "w4")
        rfl (Or.inl rfl)
    exact h2
  · exact (agent_c4_missing_key_retried_empty_hosts_not respW4b).2 "w4b" rfl

/-- Claim C1, evidence of the code bug: when allocation yields no Lease
(here the pool answers with both keys but an empty hosts list, so
`allocate_node` returns `(None, None)`) and `--keep` is not set, the run
still makes one `free_session` call — with `None` as the session id —
because `sys.exit(1)` raises `SystemExit`, which skips both `except`
clauses but not the `finally` block.  The claim (and the spec) require zero
release calls in this situation. -/
theorem agent_c1_free_session_called_without_lease :
    (allocate_node respC1).2.2 = .noLease ∧
    (mainRun argsC1 respC1 worldC1).releases = [none] ∧
    (mainRun argsC1 respC1 worldC1).status = 1 :=
  ⟨rfl, rfl, rfl⟩

theorem runPhases_front (w : World) (l : List StepTag) : ∀ si ri,
    (∃ rest, (runPhases w l si ri).1 ++ rest = l) ∧
    ((runPhases w l si ri).2 = .ok → (runPhases w l si ri).1 = l) := by
  induction l with
  | nil =>
    intro si ri
    exact ⟨⟨[], rfl⟩, fun _ => rfl⟩
  | cons t ts ih =>
    intro si ri
    by_cases hc : w.cancelAt = some si
    · refine ⟨⟨t :: ts, by simp [runPhases, hc]⟩, ?_⟩
      intro ho
      simp [runPhases, hc] at ho
    · cases hx : stepExec w ri t with
      | raise =>
        refine ⟨⟨ts, by simp [runPhases, hc, hx]⟩, ?_⟩
        intro ho
        simp [runPhases, hc, hx] at ho
      | proceed d =>
        obtain ⟨rest, hrest⟩ := (ih (si + 1) (ri + d)).1
        refine ⟨⟨rest, ?_⟩, ?_⟩
        · simpa [runPhases, hc, hx] using hrest
        · intro ho
          have hok : (runPhases w ts (si + 1) (ri + d)).2 = .ok := by
            simpa [runPhases, hc, hx] using ho
          have := (ih (si + 1) (ri + d)).2 hok
          simp [runPhases, hc, hx, this]

/-- Claim C7: in a run with a Lease obtained and `--keep` unset, the try
block's outcome — all phases done, a phase failure, or a cooperative
cancellation — always reaches the release step, which frees exactly the
obtained ssid once; a phase failure exits with status 1, a cancellation is a
clean status-0 exit, a full run exits 0; the steps that ran form an initial
segment of the planned phases (a failure or cancellation stops all further
phases), and all planned phases ran when the outcome is success. -/
theorem agent_c7_failure_still_releases (a : Args) (resp : Nat → Response)
    (w : World) (hh ss : String)
    (halloc : (allocate_node resp).2.2 = .lease hh ss)
    (hkeep : a.keep = false) :
    (mainRun a resp w).releases = [some ss] ∧
    (mainRun a resp w).outcome = (runPhases w (plan a) 0 0).2 ∧
    ((mainRun a resp w).outcome = .failed → (mainRun a resp w).status = 1) ∧
    ((mainRun a resp w).outcome = .cancelled → (mainRun a resp w).status = 0) ∧
    ((mainRun a resp w).outcome = .ok → (mainRun a resp w).status = 0) ∧
    (∃ rest, (mainRun a resp w).executed ++ rest = plan a) ∧
    ((mainRun a resp w).outcome = .ok → (mainRun a resp w).executed = plan a) := by
  have hfront := runPhases_front w (plan a) 0 0
  cases hr : (runPhases w (plan a) 0 0).2 with
  | ok =>
    refine ⟨?_, ?_, ?_, ?_, ?_, ?_, ?_⟩ <;>
      simp [mainRun, halloc, hkeep, hr, hfront.1, hfront.2 hr]
  | failed =>
    refine ⟨?_, ?_, ?_, ?_, ?_, ?_, ?_⟩ <;>
      simp [mainRun, halloc, hkeep, hr, hfront.1]
  | cancelled =>
    refine ⟨?_, ?_, ?_, ?_, ?_, ?_, ?_⟩ <;>
      simp [mainRun, halloc, hkeep, hr, hfront.1]

/-- Claim C7, witness: allocation succeeds, the bootstrap phase exits 1 —
the run releases the obtained ssid exactly once and exits with status 1,
having executed only clone and bootstrap. -/
theorem agent_c7_witness :
    (mainRun argsW7 respW7 worldW7).releases = [some "abc"] ∧
    (mainRun argsW7 respW7 worldW7).status = 1 ∧
    (mainRun argsW7 respW7 worldW7).executed = [.clone, .bootstrap] := by
  have h := agent_c7_failure_still_releases argsW7 respW7 worldW7 "host1" "abc"
    rfl rfl
  refine ⟨h.1, h.2.2.1 (by decide), by decide⟩

theorem deliverAbort_ignored (a b : Nat) (l : List Sig) :
    deliverAbort ⟨.ignored, .ignored, a, b⟩ l = none := by
  induction l with
  | nil => rfl
  | cons sig rest ih => cases sig <;> simpa [deliverAbort, dispOf] using ih

/-- Claim C8: under any schedule of SIGTERM/SIGHUP bursts, the release step
of the `finally` block starts and completes at most one `free_session` call;
once the call has started it always completes (both signals are masked to
`SIG_IGN` before it starts, so no signal can interrupt or re-enter it); and
when the sequence runs to the end without abort, the release has completed
exactly once and both signals are restored to the default disposition. -/
theorem agent_c8_release_signal_mask (sched : Nat → List Sig) :
    (releaseFinally sched).1.releasesStarted ≤ 1 ∧
    (releaseFinally sched).1.releasesCompleted ≤ 1 ∧
    ((releaseFinally sched).1.releasesStarted = 1 →
      (releaseFinally sched).1.releasesCompleted = 1) ∧
    ((releaseFinally sched).2 = none →
      (releaseFinally sched).1.term = .dfl ∧
      (releaseFinally sched).1.hup = .dfl ∧
      (releaseFinally sched).1.releasesCompleted = 1) := by
  simp only [releaseFinally, finallySeq, runFin, initSigState, applyStep,
    deliverAbort_ignored]
  cases h0 : deliverAbort ⟨.handler, .handler, 0, 0⟩ (sched 0) with
  | some ab => simp [h0]
  | none =>
    cases h1 : deliverAbort ⟨.ignored, .handler, 0, 0⟩ (sched 1) with
    | some ab => simp [h0, h1]
    | none =>
      cases h5 : deliverAbort ⟨.dfl, .ignored, 1, 1⟩ (sched 5) with
      | some ab => simp [h0, h1, h5, deliverAbort_ignored]
      | none =>
        cases h6 : deliverAbort ⟨.dfl, .dfl, 1, 1⟩ (sched 6) with
        | some ab => simp [h0, h1, h5, h6, deliverAbort_ignored]
        | none => simp [h0, h1, h5, h6, deliverAbort_ignored]

/-- Claim C8, witness: a burst of three signals arriving while
`free_session` runs neither interrupts it nor repeats it — the release
completes exactly once and both dispositions end at the default. -/
theorem agent_c8_witness :
    (releaseFinally schedW8).1.releasesCompleted = 1 ∧
    (releaseFinally schedW8).1.term = .dfl ∧
    (releaseFinally schedW8).1.hup = .dfl := by
  have h := agent_c8_release_signal_mask schedW8
  refine ⟨h.2.2.1 (by decide), (h.2.2.2 (by decide)).1, (h.2.2.2 (by decide)).2.1⟩

/-- Claim C10: the finalizer safety net is dead code — starting from
`__init__`, no sequence of operations on the `AgentControl` object ever
changes `self._node` from the empty dict, so the `__del__` guard
(`self._node is not None and "ssid" in self._node`) never holds and the
destructor never issues a release. -/
theorem agent_c10_destructor_dead_code (ops : List ACOp) :
    (ops.foldl applyOp ACState.init).nodeDict = some [] ∧
    del_fires (ops.foldl applyOp ACState.init) = false := by
  have hnode : ∀ (l : List ACOp) (s : ACState),
      (l.foldl applyOp s).nodeDict = s.nodeDict := by
    intro l
    induction l with
    | nil => intro s; rfl
    | cons op l ih =>
      intro s
      rw [List.foldl_cons, ih]
      cases op <;> rfl
  have h2 : (ops.foldl applyOp ACState.init).nodeDict = some [] := by
    rw [hnode ops ACState.init]
    rfl
  exact ⟨h2, by simp [del_fires, h2]⟩

end AgentControl
